import Mathlib

/-!
Verification development for the js-textile client SDK.

Shallow embedding of:
* the `Context` class (packages/context): a JS object holding a mutable
  key/value record `_context`, with fluent `with*` mutators, raw `set`/`get`
  accessors, `toJSON`, `fromJSON` and `withContext`;
* the users API helpers (packages/users/src/api/index.ts): request
  construction for `listInboxMessages` / `listSentboxMessages`,
  `sendMessage` result assembly, `setupMailbox` identifier decoding, and the
  `retype` update-to-event translation used by `watchMailbox`.

JavaScript values stored in the context record are modelled by `JsValue`
(with an explicit `vundefined` for `undefined`); a JS plain object used as a map
is an association list with assignment semantics (`kvSet`).  The external
`ThreadID` collaborator is kept abstract: its byte payload is explicit and
its canonical `toString` encoding is a parameter `tids` of every definition
that needs it.
-/

namespace Textile

/-- A JavaScript value as stored in the context record: `undefined`, a
string, a boolean, a number, a byte array, or an opaque transport handle. -/
inductive JsValue where
  | vundefined : JsValue
  | vstr : String → JsValue
  | vbool : Bool → JsValue
  | vnum : Int → JsValue
  | vbytes : List Nat → JsValue
  | vtransport : Nat → JsValue
deriving DecidableEq, Repr

/-- A JS plain object used as a string-keyed record: an association list,
written with assignment semantics. -/
abbrev KVMap : Type := List (String × JsValue)

/-- JS property assignment `m[k] = v`: overwrite the binding for `k` if one
exists, otherwise add it. -/
def kvSet (m : KVMap) (k : String) (v : JsValue) : KVMap :=
  match m with
  | [] => [(k, v)]
  | (k', v') :: rest => if k' = k then (k, v) :: rest else (k', v') :: kvSet rest k v

/-- JS property lookup distinguishing a missing key (`none`) from a key
present with value `undefined` (`some .vundefined`). -/
def kvGet (m : KVMap) (k : String) : Option JsValue :=
  match m with
  | [] => none
  | (k', v') :: rest => if k' = k then some v' else kvGet rest k

/-- Reading a property in JS: a missing key reads as `undefined`. -/
def kvRead (m : KVMap) (k : String) : JsValue :=
  (kvGet m k).getD .vundefined

/-- The external `ThreadID` collaborator: an identifier with a byte payload.
Its canonical string encoding is abstract (a `tids` parameter below). -/
structure ThreadID where
  bytes : List Nat
deriving DecidableEq, Repr

/-- `ThreadID.fromBytes`: wrap raw bytes as an identifier. -/
def ThreadID.fromBytes (b : List Nat) : ThreadID := ⟨b⟩

/-- The default host URL (`defaultHost` in packages/context). -/
def defaultHost : String := "https://api.textile.io:3447"

/-- The `Context` class, content view: its `_context` record. -/
structure Context where
  _context : KVMap
deriving DecidableEq, Repr

/-- What a fluent mutator returns: the receiver (`return this`) or
`undefined` (a bare `return`). -/
inductive MutRet where
  | receiver : MutRet
  | undefinedRet : MutRet
deriving DecidableEq, Repr

/-- The `Context` constructor: stores `host`, `transport` and `debug` into
the fresh `_context` record, in that order. -/
def Context.new (host : String) (transport : Nat) (debug : Bool) : Context :=
  ⟨kvSet (kvSet (kvSet [] "host" (.vstr host)) "transport" (.vtransport transport))
    "debug" (.vbool debug)⟩

/-- `Context.set(key, value)`: unconditional assignment (an `undefined`
argument is written like any other value); always returns the receiver. -/
def Context.set (c : Context) (key : String) (value : JsValue) : Context × MutRet :=
  (⟨kvSet c._context key value⟩, .receiver)

/-- `Context.get(key)`. -/
def Context.get (c : Context) (key : String) : JsValue :=
  kvRead c._context key

/-- `Context.withSession`. -/
def Context.withSession (c : Context) (value : Option String) : Context × MutRet :=
  match value with
  | none => (c, .receiver)
  | some v => (⟨kvSet c._context "x-textile-session" (.vstr v)⟩, .receiver)

/-- `Context.withThread`: stores `value.toString()`, the canonical string
form of the identifier. -/
def Context.withThread (tids : ThreadID → String) (c : Context) (value : Option ThreadID) :
    Context × MutRet :=
  match value with
  | none => (c, .receiver)
  | some v => (⟨kvSet c._context "x-textile-thread" (.vstr (tids v))⟩, .receiver)

/-- `Context.withThreadName`. -/
def Context.withThreadName (c : Context) (value : Option String) : Context × MutRet :=
  match value with
  | none => (c, .receiver)
  | some v => (⟨kvSet c._context "x-textile-thread-name" (.vstr v)⟩, .receiver)

/-- `Context.withOrg`. -/
def Context.withOrg (c : Context) (value : Option String) : Context × MutRet :=
  match value with
  | none => (c, .receiver)
  | some v => (⟨kvSet c._context "x-textile-org" (.vstr v)⟩, .receiver)

/-- `Context.withToken`: stores the string `bearer ` ++ value under the
`authorization` key. -/
def Context.withToken (c : Context) (value : Option String) : Context × MutRet :=
  match value with
  | none => (c, .receiver)
  | some v => (⟨kvSet c._context "authorization" (.vstr ("bearer " ++ v))⟩, .receiver)

/-- `Context.withAPIKey`.  Note the source ends this branch with a bare
`return`, not `return this`. -/
def Context.withAPIKey (c : Context) (value : Option String) : Context × MutRet :=
  match value with
  | none => (c, .receiver)
  | some v => (⟨kvSet c._context "x-textile-api-key" (.vstr v)⟩, .undefinedRet)

/-- `Context.withAPISig`: stores the signed message and then the signature
under their two keys. -/
def Context.withAPISig (c : Context) (value : Option (String × String)) : Context × MutRet :=
  match value with
  | none => (c, .receiver)
  | some p =>
    (⟨kvSet (kvSet c._context "x-textile-api-sig-msg" (.vstr p.2)) "x-textile-api-sig"
      (.vstr p.1)⟩, .receiver)

/-- `Context.toJSON()`: returns the `_context` record itself. -/
def Context.toJSON (c : Context) : KVMap := c._context

/-- `Context.fromJSON(json)`: builds a default context, then replaces its
whole `_context` record with the given mapping. -/
def Context.fromJSON (json : KVMap) : Context :=
  let ctx := Context.new defaultHost 0 false
  { ctx with _context := json }

/-- One call to a fluent `with*` mutator, with its (possibly `undefined`)
argument. -/
inductive WithCall where
  | session : Option String → WithCall
  | thread : Option ThreadID → WithCall
  | threadName : Option String → WithCall
  | org : Option String → WithCall
  | apiKey : Option String → WithCall
  | token : Option String → WithCall
  | apiSig : Option (String × String) → WithCall
deriving DecidableEq, Repr

/-- The state effect of one `with*` call on the receiver context (the
return value is dropped: the calls run against the same object). -/
def applyCall (tids : ThreadID → String) (c : Context) : WithCall → Context
  | .session v => (c.withSession v).1
  | .thread v => (Context.withThread tids c v).1
  | .threadName v => (c.withThreadName v).1
  | .org v => (c.withOrg v).1
  | .apiKey v => (c.withAPIKey v).1
  | .token v => (c.withToken v).1
  | .apiSig v => (c.withAPISig v).1

/-- Running a sequence of `with*` calls against one context, left to
right. -/
def applyCalls (tids : ThreadID → String) (c : Context) : List WithCall → Context
  | [] => c
  | call :: rest => applyCalls tids (applyCall tids c call) rest

/-- Specification view: the value a single `with*` call writes under a given
key (`none` when the call has an `undefined` argument or writes another
key). -/
def specWriteOf (tids : ThreadID → String) (call : WithCall) (k : String) : Option JsValue :=
  match call with
  | .session none | .thread none | .threadName none | .org none | .apiKey none
  | .token none | .apiSig none => none
  | .session (some v) => if k = "x-textile-session" then some (.vstr v) else none
  | .thread (some v) => if k = "x-textile-thread" then some (.vstr (tids v)) else none
  | .threadName (some v) => if k = "x-textile-thread-name" then some (.vstr v) else none
  | .org (some v) => if k = "x-textile-org" then some (.vstr v) else none
  | .apiKey (some v) => if k = "x-textile-api-key" then some (.vstr v) else none
  | .token (some v) => if k = "authorization" then some (.vstr ("bearer " ++ v)) else none
  | .apiSig (some p) =>
    if k = "x-textile-api-sig" then some (.vstr p.1)
    else if k = "x-textile-api-sig-msg" then some (.vstr p.2) else none

/-- Specification view: the last defined value a sequence of `with*` calls
writes under a given key, if any. -/
def specLastWrite (tids : ThreadID → String) (calls : List WithCall) (k : String) :
    Option JsValue :=
  match calls with
  | [] => none
  | call :: rest => (specLastWrite tids rest k).orElse fun _ => specWriteOf tids call k

/-- A heap of JS objects for the aliasing behaviour of `withContext`: each
context object has a `_context` field holding a reference (a `Nat` address)
to a record object; `mapAt` gives each record address its current
contents. -/
structure JsHeap where
  ctxField : Nat → Nat
  mapAt : Nat → KVMap

/-- `a.withContext(b)` on the heap: `a._context = b._context`, a reference
assignment (no copy of the record). -/
def withContextHeap (h : JsHeap) (a b : Nat) : JsHeap :=
  { h with ctxField := fun c => if c = a then h.ctxField b else h.ctxField c }

/-- `c.set(k, v)` on the heap: mutate the record object that `c._context`
currently points to. -/
def setHeap (h : JsHeap) (c : Nat) (k : String) (v : JsValue) : JsHeap :=
  { h with
    mapAt := fun m => if m = h.ctxField c then kvSet (h.mapAt m) k v else h.mapAt m }

/-- `c.toJSON()` on the heap: the contents of the record `c._context` points
to. -/
def toJSONHeap (h : JsHeap) (c : Nat) : KVMap :=
  h.mapAt (h.ctxField c)

/-- A sequence of single-key `set` mutations, each performed through some
context reference. -/
def applySetSteps (h : JsHeap) (steps : List (Nat × String × JsValue)) : JsHeap :=
  match steps with
  | [] => h
  | (c, k, v) :: rest => applySetSteps (setHeap h c k v) rest

/-- The `Status` read filter enum: ALL = 0, READ = 1, UNREAD = 2 (numeric,
as TypeScript enums are). -/
def Status.ALL : Nat := 0

/-- `Status.READ`. -/
def Status.READ : Nat := 1

/-- `Status.UNREAD`. -/
def Status.UNREAD : Nat := 2

/-- `InboxListOptions`: every field optional (`none` = absent). -/
structure InboxListOptions where
  seek : Option String
  limit : Option Int
  ascending : Option Bool
  status : Option Nat
deriving DecidableEq, Repr

/-- `SentboxListOptions`: every field optional (`none` = absent). -/
structure SentboxListOptions where
  seek : Option String
  limit : Option Int
  ascending : Option Bool
deriving DecidableEq, Repr

/-- A `ListInboxMessagesRequest` protobuf object: a field is `none` until
its setter is called. -/
structure ListInboxMessagesRequest where
  seek : Option String
  limit : Option Int
  ascending : Option Bool
  status : Option Nat
deriving DecidableEq, Repr

/-- A `ListSentboxMessagesRequest` protobuf object. -/
structure ListSentboxMessagesRequest where
  seek : Option String
  limit : Option Int
  ascending : Option Bool
deriving DecidableEq, Repr

/-- The request built by `listInboxMessages`: each setter call is guarded by
the JS truthiness test `opts && opts.<field>` (an empty string, the number
0, `false` and an absent field are all falsy). -/
def listInboxMessagesReq (opts : Option InboxListOptions) : ListInboxMessagesRequest :=
  let req : ListInboxMessagesRequest :=
    { seek := none, limit := none, ascending := none, status := none }
  match opts with
  | none => req
  | some o =>
    let req := match o.seek with
      | some s => if s ≠ "" then { req with seek := some s } else req
      | none => req
    let req := match o.limit with
      | some n => if n ≠ 0 then { req with limit := some n } else req
      | none => req
    let req := match o.ascending with
      | some b => if b then { req with ascending := some b } else req
      | none => req
    let req := match o.status with
      | some st => if st ≠ 0 then { req with status := some st } else req
      | none => req
    req

/-- The request built by `listSentboxMessages`, same truthiness guards. -/
def listSentboxMessagesReq (opts : Option SentboxListOptions) : ListSentboxMessagesRequest :=
  let req : ListSentboxMessagesRequest := { seek := none, limit := none, ascending := none }
  match opts with
  | none => req
  | some o =>
    let req := match o.seek with
      | some s => if s ≠ "" then { req with seek := some s } else req
      | none => req
    let req := match o.limit with
      | some n => if n ≠ 0 then { req with limit := some n } else req
      | none => req
    let req := match o.ascending with
      | some b => if b then { req with ascending := some b } else req
      | none => req
    req

/-- The `UserMessage` domain object returned by the mailbox API. -/
structure UserMessage where
  id : String
  to_ : String
  from_ : String
  body : List Nat
  signature : List Nat
  createdAt : Int
  readAt : Option Int
deriving DecidableEq, Repr

/-- A `SendMessageRequest` protobuf object as filled in by `sendMessage`. -/
structure SendMessageRequest where
  to_ : String
  tobody : List Nat
  tosignature : List Nat
  frombody : List Nat
  fromsignature : List Nat
deriving DecidableEq, Repr

/-- A `SendMessageReply`: the server supplies only the new message id and
the creation timestamp. -/
structure SendMessageReply where
  id : String
  createdAt : Int
deriving DecidableEq, Repr

/-- `sendMessage`: builds the outgoing request from the caller's arguments
and assembles the returned `UserMessage` from the sender-side copy plus the
reply's id and timestamp. -/
def sendMessage (from_ to_ : String) (toBody toSignature fromBody fromSignature : List Nat)
    (reply : SendMessageReply) : SendMessageRequest × UserMessage :=
  let req : SendMessageRequest :=
    { to_ := to_, tobody := toBody, tosignature := toSignature,
      frombody := fromBody, fromsignature := fromSignature }
  (req,
    { id := reply.id, createdAt := reply.createdAt, body := fromBody,
      signature := fromSignature, to_ := to_, from_ := from_, readAt := none })

/-- The base64 alphabet character for a sextet. -/
def b64Char (n : Nat) : Char :=
  Char.ofNat
    (if n < 26 then 65 + n
     else if n < 52 then 97 + (n - 26)
     else if n < 62 then 48 + (n - 52)
     else if n = 62 then 43
     else 47)

/-- The sextet of a base64 alphabet character; `none` for padding and any
character outside the alphabet (Node's decoder skips them). -/
def b64Index (c : Char) : Option Nat :=
  let n := c.toNat
  if 65 ≤ n ∧ n ≤ 90 then some (n - 65)
  else if 97 ≤ n ∧ n ≤ 122 then some (26 + (n - 97))
  else if 48 ≤ n ∧ n ≤ 57 then some (52 + (n - 48))
  else if n = 43 then some 62
  else if n = 47 then some 63
  else none

/-- Standard base64 encoding of a byte list (no padding characters; Node's
decoder accepts the unpadded form). -/
def base64encode : List Nat → List Char
  | b0 :: b1 :: b2 :: rest =>
    b64Char (b0 / 4) :: b64Char ((b0 % 4) * 16 + b1 / 16) ::
      b64Char ((b1 % 16) * 4 + b2 / 64) :: b64Char (b2 % 64) :: base64encode rest
  | [b0, b1] => [b64Char (b0 / 4), b64Char ((b0 % 4) * 16 + b1 / 16), b64Char ((b1 % 16) * 4)]
  | [b0] => [b64Char (b0 / 4), b64Char ((b0 % 4) * 16)]
  | [] => []

/-- Regroup decoded sextets into bytes (Node semantics: a trailing lone
sextet is dropped, 2 or 3 trailing sextets yield 1 or 2 bytes). -/
def sextetsToBytes : List Nat → List Nat
  | s0 :: s1 :: s2 :: s3 :: rest =>
    (s0 * 4 + s1 / 16) :: ((s1 % 16) * 16 + s2 / 4) :: ((s2 % 4) * 64 + s3) ::
      sextetsToBytes rest
  | [s0, s1, s2] => [s0 * 4 + s1 / 16, (s1 % 16) * 16 + s2 / 4]
  | [s0, s1] => [s0 * 4 + s1 / 16]
  | [_] => []
  | [] => []

/-- `Buffer.from(s, 'base64')`: keep the alphabet characters, regroup their
sextets into bytes. -/
def base64decode (s : List Char) : List Nat :=
  sextetsToBytes (s.filterMap b64Index)

/-- A `SetupMailboxReply`: carries the mailbox thread identifier as a
base64 string (`getMailboxid_asB64`). -/
structure SetupMailboxReply where
  mailboxidB64 : List Char
deriving DecidableEq, Repr

/-- `setupMailbox` reply handling:
`ThreadID.fromBytes(Buffer.from(res.getMailboxid_asB64(), 'base64')).toString()`,
with the external canonical encoding `tids` as a parameter. -/
def setupMailbox (tids : ThreadID → String) (res : SetupMailboxReply) : String :=
  tids (ThreadID.fromBytes (base64decode res.mailboxidB64))

/-- The `MailboxEventType` enum value CREATE = 0. -/
def MailboxEventType.CREATE : Nat := 0

/-- The `MailboxEventType` enum value SAVE = 1. -/
def MailboxEventType.SAVE : Nat := 1

/-- The `MailboxEventType` enum value DELETE = 2. -/
def MailboxEventType.DELETE : Nat := 2

/-- The `IntermediateMessage` wire shape decoded from the change feed:
body and signature are base64 strings. -/
structure IntermediateMessage where
  _id : String
  from_ : String
  to_ : String
  body : List Char
  signature : List Char
  created_at : Int
  read_at : Int
deriving DecidableEq, Repr

/-- A generic change-feed update as delivered to the `retype` callback:
a numeric action tag, the affected instance id, and an optional decoded
instance payload. -/
structure Update where
  action : Nat
  instanceID : String
  inst : Option IntermediateMessage
deriving DecidableEq, Repr

/-- A `MailboxEvent`: the source writes the update's numeric action tag
straight into the `type` field (`reply.action as number`). -/
structure MailboxEvent where
  type : Nat
  messageID : String
  message : Option UserMessage
deriving DecidableEq, Repr

/-- The translation of one present update inside `watchMailbox`'s `retype`:
copy the action tag and instance id; attach a decoded message exactly when
the update carries an instance payload. -/
def retypeUpdate (u : Update) : MailboxEvent :=
  let result : MailboxEvent := { type := u.action, messageID := u.instanceID, message := none }
  match u.inst with
  | none => result
  | some m =>
    { result with
      message := some
        { id := u.instanceID, from_ := m.from_, to_ := m.to_,
          body := base64decode m.body, signature := base64decode m.signature,
          createdAt := m.created_at, readAt := some m.read_at } }

/-- The full `retype` callback adapter: a missing reply forwards the error,
a present reply is translated and delivered with no error. -/
def retype (reply : Option Update) (err : Option String) :
    Option MailboxEvent × Option String :=
  match reply with
  | none => (none, err)
  | some u => (some (retypeUpdate u), none)

/-- Modelled from the spec: the updates the hub-threads-client change feed
delivers to the mailbox subscription.  The feed's own code is not under
src/; per the spec's event-translation algorithm, the action tag is one of
the three known tags and the delete case carries no instance payload. -/
def FeedUpdate (u : Update) : Prop :=
  u.action ≤ 2 ∧ (u.action = MailboxEventType.DELETE → u.inst = none)

instance (u : Update) : Decidable (FeedUpdate u) := by
  unfold FeedUpdate
  infer_instance

theorem kvGet_kvSet (m : KVMap) (wk : String) (v : JsValue) (k : String) :
    kvGet (kvSet m wk v) k = if k = wk then some v else kvGet m k := by
  induction m with
  | nil =>
    by_cases h : k = wk
    · subst h
      simp [kvSet, kvGet]
    · have h' : ¬ wk = k := fun e => h e.symm
      simp [kvSet, kvGet, h, h']
  | cons hd tl ih =>
    obtain ⟨k', v'⟩ := hd
    by_cases h1 : k' = wk
    · subst h1
      by_cases h2 : k = k'
      · subst h2
        simp [kvSet, kvGet]
      · have h2' : ¬ k' = k := fun e => h2 e.symm
        simp [kvSet, kvGet, h2, h2']
    · by_cases h2 : k' = k
      · subst h2
        simp [kvSet, kvGet, h1]
      · simp [kvSet, kvGet, h1, h2, ih]

theorem option_orElse_assoc {α : Type} (a b c : Option α) :
    (a.orElse fun _ => b).orElse (fun _ => c) =
      a.orElse fun _ => b.orElse fun _ => c := by
  cases a <;> rfl

theorem kvGet_applyCall (tids : ThreadID → String) (c : Context) (call : WithCall)
    (k : String) :
    kvGet (applyCall tids c call).toJSON k =
      (specWriteOf tids call k).orElse fun _ => kvGet c.toJSON k := by
  cases call with
  | session v =>
    cases v <;>
      simp [applyCall, Context.withSession, specWriteOf, Context.toJSON, kvGet_kvSet,
        Option.orElse] <;> split_ifs <;> simp_all
  | thread v =>
    cases v <;>
      simp [applyCall, Context.withThread, specWriteOf, Context.toJSON, kvGet_kvSet,
        Option.orElse] <;> split_ifs <;> simp_all
  | threadName v =>
    cases v <;>
      simp [applyCall, Context.withThreadName, specWriteOf, Context.toJSON, kvGet_kvSet,
        Option.orElse] <;> split_ifs <;> simp_all
  | org v =>
    cases v <;>
      simp [applyCall, Context.withOrg, specWriteOf, Context.toJSON, kvGet_kvSet,
        Option.orElse] <;> split_ifs <;> simp_all
  | apiKey v =>
    cases v <;>
      simp [applyCall, Context.withAPIKey, specWriteOf, Context.toJSON, kvGet_kvSet,
        Option.orElse] <;> split_ifs <;> simp_all
  | token v =>
    cases v <;>
      simp [applyCall, Context.withToken, specWriteOf, Context.toJSON, kvGet_kvSet,
        Option.orElse] <;> split_ifs <;> simp_all
  | apiSig v =>
    cases v <;>
      simp [applyCall, Context.withAPISig, specWriteOf, Context.toJSON, kvGet_kvSet,
        Option.orElse] <;> split_ifs <;> simp_all

theorem kvGet_applyCalls (tids : ThreadID → String) (c : Context) (calls : List WithCall)
    (k : String) :
    kvGet (applyCalls tids c calls).toJSON k =
      (specLastWrite tids calls k).orElse fun _ => kvGet c.toJSON k := by
  induction calls generalizing c with
  | nil => simp [applyCalls, specLastWrite, Option.orElse]
  | cons call rest ih =>
    simp only [applyCalls, specLastWrite]
    rw [ih, kvGet_applyCall]
    exact (option_orElse_assoc _ _ _).symm

theorem ctxField_applySetSteps (steps : List (Nat × String × JsValue)) (h : JsHeap) :
    (applySetSteps h steps).ctxField = h.ctxField := by
  induction steps generalizing h with
  | nil => rfl
  | cons step rest ih =>
    obtain ⟨c, k, v⟩ := step
    simp only [applySetSteps]
    rw [ih]
    rfl

/-- Claim C1 (code bug witness): on a fresh context, `withAPIKey` with the
defined key `"mykey"` does set the recognized key, but evaluates to
`undefined` (a bare `return`) instead of the receiver, unlike every other
fluent mutator, which returns the receiver. -/
theorem withAPIKey_sets_key_but_returns_undefined :
    (Context.withAPIKey (Context.new defaultHost 0 false) (some "mykey")).2 = MutRet.undefinedRet ∧
    Context.get (Context.withAPIKey (Context.new defaultHost 0 false) (some "mykey")).1
      "x-textile-api-key" = JsValue.vstr "mykey" ∧
    (Context.withSession (Context.new defaultHost 0 false) (some "s")).2 = MutRet.receiver ∧
    (Context.withThread (fun _ => "tid") (Context.new defaultHost 0 false)
      (some ⟨[0]⟩)).2 = MutRet.receiver ∧
    (Context.withThreadName (Context.new defaultHost 0 false) (some "n")).2 =
      MutRet.receiver ∧
    (Context.withOrg (Context.new defaultHost 0 false) (some "o")).2 = MutRet.receiver ∧
    (Context.withToken (Context.new defaultHost 0 false) (some "t")).2 = MutRet.receiver ∧
    (Context.withAPISig (Context.new defaultHost 0 false) (some ("sig", "msg"))).2 =
      MutRet.receiver := by
  refine ⟨rfl, by decide, rfl, rfl, rfl, rfl, rfl, rfl⟩

/-- Claim C5: after any sequence of `with*` calls, `toJSON()` maps every key
to the last defined value written for it (falling back to the prior
contents), and each mutator called with `undefined` leaves the context
unchanged. -/
theorem with_mutators_last_write_wins (tids : ThreadID → String) (c : Context)
    (calls : List WithCall) (k : String) :
    (kvGet (applyCalls tids c calls).toJSON k =
      ((specLastWrite tids calls k).orElse fun _ => kvGet c.toJSON k)) ∧
    applyCall tids c (.session none) = c ∧
    applyCall tids c (.thread none) = c ∧
    applyCall tids c (.threadName none) = c ∧
    applyCall tids c (.org none) = c ∧
    applyCall tids c (.apiKey none) = c ∧
    applyCall tids c (.token none) = c ∧
    applyCall tids c (.apiSig none) = c :=
  ⟨kvGet_applyCalls tids c calls k, rfl, rfl, rfl, rfl, rfl, rfl, rfl⟩

/-- Claim C6: `fromJSON(ctx.toJSON())` yields a context whose `toJSON()` is
(deeply) equal to the original's, key for key — extension keys included,
since the whole record is carried over. -/
theorem fromJSON_toJSON_roundtrip (c : Context) :
    (Context.fromJSON c.toJSON).toJSON = c.toJSON ∧
    ∀ k, kvGet (Context.fromJSON c.toJSON).toJSON k = kvGet c.toJSON k :=
  ⟨rfl, fun _ => rfl⟩

/-- Claim C9: `a.withContext(b)` copies b's record reference into a, so the
two `_context` fields alias the same record, the two `toJSON()` views are
equal, and they stay equal after any sequence of single-key `set` mutations
performed through either context (or any other alias). -/
theorem withContext_shares_by_reference (h : JsHeap) (a b : Nat) :
    (withContextHeap h a b).ctxField a = (withContextHeap h a b).ctxField b ∧
    toJSONHeap (withContextHeap h a b) a = toJSONHeap (withContextHeap h a b) b ∧
    ∀ steps, toJSONHeap (applySetSteps (withContextHeap h a b) steps) a =
      toJSONHeap (applySetSteps (withContextHeap h a b) steps) b := by
  have hfield : (withContextHeap h a b).ctxField a = (withContextHeap h a b).ctxField b := by
    simp only [withContextHeap, if_pos rfl]
    split_ifs <;> simp_all
  refine ⟨hfield, ?_, ?_⟩
  · unfold toJSONHeap
    rw [hfield]
  · intro steps
    unfold toJSONHeap
    rw [ctxField_applySetSteps, hfield]

/-- Claim C2 counterexample: an options object that is present with a
default-like value — limit 0, ascending false, status ALL, and for the
sentbox limit 0 — fails the JS truthiness guard, so the field is NOT set on
the outgoing request, contradicting the claim that present fields are
always included. -/
theorem list_options_present_falsy_fields_omitted :
    (listInboxMessagesReq (some ⟨none, some 0, none, none⟩)).limit = none ∧
    ¬(listInboxMessagesReq (some ⟨none, some 0, none, none⟩)).limit = some 0 ∧
    (listInboxMessagesReq (some ⟨none, none, some false, none⟩)).ascending = none ∧
    (listInboxMessagesReq (some ⟨none, none, none, some Status.ALL⟩)).status = none ∧
    (listSentboxMessagesReq (some ⟨none, some 0, none⟩)).limit = none := by
  refine ⟨rfl, by decide, rfl, rfl, rfl⟩

theorem inbox_req_fields (o : InboxListOptions) :
    (listInboxMessagesReq (some o)).seek = (o.seek.filter fun s => s != "") ∧
    (listInboxMessagesReq (some o)).limit = (o.limit.filter fun n => n != 0) ∧
    (listInboxMessagesReq (some o)).ascending = (o.ascending.filter fun b => b) ∧
    (listInboxMessagesReq (some o)).status = (o.status.filter fun v => v != 0) := by
  obtain ⟨sk, lm, asc, st2⟩ := o
  cases sk <;> cases lm <;> cases asc <;> cases st2 <;>
    simp only [listInboxMessagesReq, Option.filter] <;>
    (try split_ifs) <;>
    simp_all

theorem sentbox_req_fields (so : SentboxListOptions) :
    (listSentboxMessagesReq (some so)).seek = (so.seek.filter fun s => s != "") ∧
    (listSentboxMessagesReq (some so)).limit = (so.limit.filter fun n => n != 0) ∧
    (listSentboxMessagesReq (some so)).ascending = (so.ascending.filter fun b => b) := by
  obtain ⟨sk', lm', asc'⟩ := so
  cases sk' <;> cases lm' <;> cases asc' <;>
    simp only [listSentboxMessagesReq, Option.filter] <;>
    (try split_ifs) <;>
    simp_all

/-- Claim C2 (amended): a field is set on the outgoing list request exactly
when it is present in the options object with a truthy value — the request
field equals the options field filtered by truthiness (non-empty seek,
non-zero limit, ascending true, status other than ALL); absent fields and
present-but-falsy fields are both omitted, and absent options leave every
field unset. -/
theorem list_options_truthy_passthrough (o : InboxListOptions) (so : SentboxListOptions) :
    (listInboxMessagesReq (some o)).seek = (o.seek.filter fun s => s != "") ∧
    (listInboxMessagesReq (some o)).limit = (o.limit.filter fun n => n != 0) ∧
    (listInboxMessagesReq (some o)).ascending = (o.ascending.filter fun b => b) ∧
    (listInboxMessagesReq (some o)).status = (o.status.filter fun v => v != 0) ∧
    listInboxMessagesReq none = ⟨none, none, none, none⟩ ∧
    (listSentboxMessagesReq (some so)).seek = (so.seek.filter fun s => s != "") ∧
    (listSentboxMessagesReq (some so)).limit = (so.limit.filter fun n => n != 0) ∧
    (listSentboxMessagesReq (some so)).ascending = (so.ascending.filter fun b => b) ∧
    listSentboxMessagesReq none = ⟨none, none, none⟩ :=
  ⟨(inbox_req_fields o).1, (inbox_req_fields o).2.1, (inbox_req_fields o).2.2.1,
    (inbox_req_fields o).2.2.2, rfl, (sentbox_req_fields so).1, (sentbox_req_fields so).2.1,
    (sentbox_req_fields so).2.2, rfl⟩

/-- Claim C3 counterexample: an update whose action tag is 5 — outside the
three known tags — is translated into a delivered event whose type is the
raw tag 5, with no error on the error channel; no hard error is raised. -/
theorem retype_unknown_tag_passed_through_silently :
    retypeUpdate ⟨5, "m1", none⟩ = ⟨5, "m1", none⟩ ∧
    retype (some ⟨5, "m1", none⟩) none = (some ⟨5, "m1", none⟩, none) ∧
    ¬(retypeUpdate ⟨5, "m1", none⟩).type = MailboxEventType.CREATE ∧
    ¬(retypeUpdate ⟨5, "m1", none⟩).type = MailboxEventType.SAVE ∧
    ¬(retypeUpdate ⟨5, "m1", none⟩).type = MailboxEventType.DELETE := by
  refine ⟨rfl, rfl, by decide, by decide, by decide⟩

/-- Claim C3 (amended): the translation copies the update's numeric action
tag into the event type unchanged — for the three known tags this is the
1:1 mapping, and a tag outside them flows through as-is while the error
channel stays empty. -/
theorem retype_copies_action_tag (u : Update) (err : Option String) :
    (retypeUpdate u).type = u.action ∧
    retype (some u) err = (some (retypeUpdate u), none) := by
  refine ⟨?_, rfl⟩
  cases h : u.inst <;> simp [retypeUpdate, h]

/-- Claim C4: for feed updates (whose delete case carries no instance
payload), a DELETE-typed event carries no message; moreover an event
carries a message exactly when the update carried a payload, and any
carried message's id equals the event's top-level messageID. -/
theorem deleted_events_carry_no_message (u : Update) (h : FeedUpdate u) :
    ((retypeUpdate u).type = MailboxEventType.DELETE → (retypeUpdate u).message = none) ∧
    (retypeUpdate u).message.isSome = u.inst.isSome ∧
    Option.all (fun m => m.id == (retypeUpdate u).messageID) (retypeUpdate u).message =
      true := by
  have htype : (retypeUpdate u).type = u.action := by
    cases hi : u.inst <;> simp [retypeUpdate, hi]
  refine ⟨?_, ?_, ?_⟩
  · intro hdel
    rw [htype] at hdel
    have hnone : u.inst = none := h.2 hdel
    simp [retypeUpdate, hnone]
  · cases hi : u.inst <;> simp [retypeUpdate, hi]
  · cases hi : u.inst <;> simp [retypeUpdate, hi]

/-- Claim C4 witness: the theorem applied to the concrete feed update with
action DELETE, id "m1" and no payload. -/
theorem deleted_events_carry_no_message_witness :
    FeedUpdate ⟨2, "m1", none⟩ ∧
    (((retypeUpdate ⟨2, "m1", none⟩).type = MailboxEventType.DELETE →
        (retypeUpdate ⟨2, "m1", none⟩).message = none) ∧
      (retypeUpdate ⟨2, "m1", none⟩).message.isSome = (none : Option IntermediateMessage).isSome ∧
      Option.all (fun m => m.id == (retypeUpdate ⟨2, "m1", none⟩).messageID)
        (retypeUpdate ⟨2, "m1", none⟩).message = true) :=
  ⟨by decide, deleted_events_carry_no_message ⟨2, "m1", none⟩ (by decide)⟩

/-- Claim C7: the `UserMessage` returned by `sendMessage` takes body and
signature from the caller's sender-side copy and to/from from the caller's
arguments; only the id and creation timestamp come from the reply, and the
outgoing request carries exactly the caller's five message arguments. -/
theorem sendMessage_uses_local_sender_copy (sender recipient : String)
    (tb ts fb fs : List Nat) (reply : SendMessageReply) :
    (sendMessage sender recipient tb ts fb fs reply).2.body = fb ∧
    (sendMessage sender recipient tb ts fb fs reply).2.signature = fs ∧
    (sendMessage sender recipient tb ts fb fs reply).2.to_ = recipient ∧
    (sendMessage sender recipient tb ts fb fs reply).2.from_ = sender ∧
    (sendMessage sender recipient tb ts fb fs reply).2.id = reply.id ∧
    (sendMessage sender recipient tb ts fb fs reply).2.createdAt = reply.createdAt ∧
    (sendMessage sender recipient tb ts fb fs reply).1 = ⟨recipient, tb, ts, fb, fs⟩ :=
  ⟨rfl, rfl, rfl, rfl, rfl, rfl, rfl⟩

/-- Claim C10: `set(key, undefined)` writes `undefined` under the key (the
key is present afterwards, any earlier value overwritten), a later `get`
reads `undefined`, and `set` always returns the receiver. -/
theorem set_undefined_overwrites_and_returns_receiver (c : Context) (k : String) :
    (Context.set c k JsValue.vundefined).2 = MutRet.receiver ∧
    kvGet (Context.set c k JsValue.vundefined).1.toJSON k = some JsValue.vundefined ∧
    Context.get (Context.set c k JsValue.vundefined).1 k = JsValue.vundefined := by
  refine ⟨rfl, ?_, ?_⟩
  · simp [Context.set, Context.toJSON, kvGet_kvSet]
  · simp [Context.get, Context.set, kvRead, kvGet_kvSet]

theorem b64Index_b64Char : ∀ n : Nat, n < 64 → b64Index (b64Char n) = some n := by
  decide

theorem base64_roundtrip : ∀ bs : List Nat, (∀ b ∈ bs, b < 256) →
    base64decode (base64encode bs) = bs
  | [], _ => rfl
  | [b0], h => by
    have h0 : b0 < 256 := h b0 (by simp)
    have e0 : b64Index (b64Char (b0 / 4)) = some (b0 / 4) :=
      b64Index_b64Char _ (by omega)
    have e1 : b64Index (b64Char ((b0 % 4) * 16)) = some ((b0 % 4) * 16) :=
      b64Index_b64Char _ (by omega)
    simp only [base64encode, base64decode, List.filterMap_cons, e0, e1,
      List.filterMap_nil, sextetsToBytes]
    have : (b0 / 4) * 4 + ((b0 % 4) * 16) / 16 = b0 := by omega
    rw [this]
  | [b0, b1], h => by
    have h0 : b0 < 256 := h b0 (by simp)
    have h1 : b1 < 256 := h b1 (by simp)
    have e0 : b64Index (b64Char (b0 / 4)) = some (b0 / 4) :=
      b64Index_b64Char _ (by omega)
    have e1 : b64Index (b64Char ((b0 % 4) * 16 + b1 / 16)) =
        some ((b0 % 4) * 16 + b1 / 16) :=
      b64Index_b64Char _ (by omega)
    have e2 : b64Index (b64Char ((b1 % 16) * 4)) = some ((b1 % 16) * 4) :=
      b64Index_b64Char _ (by omega)
    simp only [base64encode, base64decode, List.filterMap_cons, e0, e1, e2,
      List.filterMap_nil, sextetsToBytes]
    have g0 : (b0 / 4) * 4 + ((b0 % 4) * 16 + b1 / 16) / 16 = b0 := by omega
    have g1 : (((b0 % 4) * 16 + b1 / 16) % 16) * 16 + ((b1 % 16) * 4) / 4 = b1 := by omega
    rw [g0, g1]
  | b0 :: b1 :: b2 :: rest, h => by
    have h0 : b0 < 256 := h b0 (by simp)
    have h1 : b1 < 256 := h b1 (by simp)
    have h2 : b2 < 256 := h b2 (by simp)
    have ih := base64_roundtrip rest fun b hb => h b (by simp [hb])
    have e0 : b64Index (b64Char (b0 / 4)) = some (b0 / 4) :=
      b64Index_b64Char _ (by omega)
    have e1 : b64Index (b64Char ((b0 % 4) * 16 + b1 / 16)) =
        some ((b0 % 4) * 16 + b1 / 16) :=
      b64Index_b64Char _ (by omega)
    have e2 : b64Index (b64Char ((b1 % 16) * 4 + b2 / 64)) =
        some ((b1 % 16) * 4 + b2 / 64) :=
      b64Index_b64Char _ (by omega)
    have e3 : b64Index (b64Char (b2 % 64)) = some (b2 % 64) :=
      b64Index_b64Char _ (by omega)
    simp only [base64decode] at ih
    simp only [base64encode, base64decode, List.filterMap_cons, e0, e1, e2, e3,
      sextetsToBytes]
    have g0 : (b0 / 4) * 4 + ((b0 % 4) * 16 + b1 / 16) / 16 = b0 := by omega
    have g1 : (((b0 % 4) * 16 + b1 / 16) % 16) * 16 + ((b1 % 16) * 4 + b2 / 64) / 4 = b1 := by
      omega
    have g2 : (((b1 % 16) * 4 + b2 / 64) % 4) * 64 + b2 % 64 = b2 := by omega
    rw [g0, g1, g2, ih]

/-- Claim C8: for a reply carrying the base64 encoding of an identifier's
bytes, `setupMailbox` returns exactly the canonical string (the external
`toString`, here the parameter `tids`) of the ThreadID built from those
bytes — the base64 is decoded exactly once, and neither the raw base64
string nor a re-encoded value is returned. -/
theorem setupMailbox_decodes_base64_once (tids : ThreadID → String) (bs : List Nat)
    (h : ∀ b ∈ bs, b < 256) :
    setupMailbox tids ⟨base64encode bs⟩ = tids (ThreadID.fromBytes bs) := by
  unfold setupMailbox
  rw [show base64decode (base64encode bs) = bs from base64_roundtrip bs h]

/-- Claim C8 witness: the spec's example shape — the bytes 0, 1, 2 encode
as the base64 string "AAEC", and `setupMailbox` on that reply returns the
canonical string of the decoded identifier, not the raw base64. -/
theorem setupMailbox_decodes_base64_once_witness :
    (∀ b ∈ [0, 1, 2], b < 256) ∧
    base64encode [0, 1, 2] = "AAEC".data ∧
    setupMailbox (fun t => toString t.bytes) ⟨base64encode [0, 1, 2]⟩ =
      (fun t : ThreadID => toString t.bytes) (ThreadID.fromBytes [0, 1, 2]) :=
  ⟨by decide, by decide,
    setupMailbox_decodes_base64_once (fun t => toString t.bytes) [0, 1, 2] (by decide)⟩

end Textile
